import Mathlib

/-!
Verification of `confluence/client.py` (confluence-python-lib): a shallow
embedding of the `Confluence` client class — session lifecycle, the
single-result fetch, the paged-results engine, and the query builders —
together with theorems settling the specification's claims about them.

HTTP transport is modelled by an oracle function from requests to decoded
JSON bodies; a run of the paged engine is modelled as the trace of events
(requests issued, items yielded, decode errors raised) that Python's
generator produces, with a fuel argument standing for the number of loop
iterations the `while` loop is allowed.
-/

namespace ConfluenceClient

/-- Query parameters: an association list modelling the Python `dict` the
query builders assemble (keys are inserted at most once each, so an
append-based insert is faithful). -/
abbrev Params := List (String × String)

/-- A single outgoing HTTP GET request: the URL, the query-parameter mapping
passed alongside it, and the basic-auth credentials it carries (either from
the scoped session or passed per-request). -/
structure GetRequest where
  url : String
  params : Params
  auth : String × String
deriving DecidableEq, Repr

/-- The decoded JSON body of one page of a paged response, as the paged
engine inspects it.  `links = none` models a body with no `_links` key;
`links = some none` models `_links` present but without a `next` key;
`links = some (some s)` models `_links.next = s`.  `results = none` models a
body with no `results` key; `results = some l` models `results` being the
list `l` of raw item objects (the raw-object type `J` is abstract, since
JSON parsing is an external collaborator). -/
structure Response (J : Type) where
  links : Option (Option String)
  results : Option (List J)
deriving DecidableEq, Repr

/-- A decode error raised by the paged engine: the Python `KeyError` when
the body lacks `_links`, or when it lacks `results`. -/
inductive PageError where
  | missingLinks
  | missingResults
deriving DecidableEq, Repr

/-- One observable event of a run of the paged generator: an HTTP GET being
issued, a hydrated item being yielded to the consumer, or a decode error
surfacing. -/
inductive Event (α : Type) where
  | req : GetRequest → Event α
  | yield : α → Event α
  | err : PageError → Event α
deriving DecidableEq, Repr

/-- The `requests.Session` installed by `__enter__`: it carries the
basic-auth pair assigned to `session.auth`, and a flag recording whether
`close()` has been called on it. -/
structure Session where
  auth : String × String
  closed : Bool
deriving DecidableEq, Repr

/-- The state of a `Confluence` instance: `base_url` and `basic_auth` from
the constructor, and `_client`, the optional session (`None` until
`__enter__` runs). -/
structure Confluence where
  base_url : String
  basic_auth : String × String
  client : Option Session
deriving DecidableEq, Repr

/-- `Confluence.__init__`: records the base URL and credentials;
`_client` starts as `None`. -/
def init (base_url : String) (basic_auth : String × String) : Confluence :=
  ⟨base_url, basic_auth, none⟩

/-- `self._api_base = '{}/rest/api'.format(self._base_url)`. -/
def apiBase (c : Confluence) : String :=
  c.base_url ++ "/rest/api"

/-- `Confluence.__enter__`: installs a fresh session whose `auth` is the
stored basic-auth pair.  The Python method has no `return` statement, so the
value produced for the `with ... as` binding is `None`; the pair returned
here is (new instance state, the value `__enter__` returns). -/
def enter (c : Confluence) : Confluence × Option Confluence :=
  ({ c with client := some ⟨c.basic_auth, false⟩ }, none)

/-- `Confluence.__exit__`: `if self._client: self._client.close()` — closes
the session only when one was installed, and leaves the state untouched
otherwise. -/
def exitBlock (c : Confluence) : Confluence :=
  match c.client with
  | some s => { c with client := some { s with closed := true } }
  | none => c

/-- The request-issuing branch shared by `_get_single_result` and
`_get_paged_results`: `if self._client:` use the scoped session (whose
`auth` was set by `__enter__`), `else` fall back to an ad-hoc
`requests.get(..., auth=self._basic_auth)`. -/
def issueGet (c : Confluence) (url : String) (params : Params) : GetRequest :=
  match c.client with
  | some s => ⟨url, params, s.auth⟩
  | none => ⟨url, params, c.basic_auth⟩

/-- `if expand: params['expand'] = ','.join(expand)` — Python truthiness:
both `None` and the empty list leave the mapping unchanged. -/
def mergeExpand (params : Params) (expand : Option (List String)) : Params :=
  match expand with
  | some es => if es = [] then params else params ++ [("expand", String.intercalate "," es)]
  | none => params

/-- `Confluence._get_single_result`: builds `'{}/{}'.format(self._api_base,
path)`, merges `expand` into the parameters, issues exactly one GET, and
hydrates the whole decoded body with the item constructor.  `fetchS` is the
transport oracle giving the decoded body for a request; the returned pair is
(the one request issued, the one hydrated object). -/
def getSingleResult {J α : Type} (c : Confluence) (fetchS : GetRequest → J)
    (itemType : J → α) (path : String) (params : Params)
    (expand : Option (List String)) : GetRequest × α :=
  let url := apiBase c ++ "/" ++ path
  let ps := mergeExpand params expand
  let r := issueGet c url ps
  (r, itemType (fetchS r))

/-- The `while url is not None:` loop of `Confluence._get_paged_results`,
as the event trace its generator produces: each iteration issues a GET to
the current URL with the current parameters; a body lacking `_links` raises
before anything of that page is yielded; otherwise, when `_links` has a
`next` key the following URL is `base_url + next` and the parameter mapping
is cleared; a body lacking `results` then raises, still before any yield;
otherwise every raw object of `results` is hydrated and yielded in order,
after which the loop continues (or stops when there was no `next`).  `fuel`
bounds the number of loop iterations; `fuel = 0` produces the empty trace,
standing for a run not yet observed to terminate. -/
def pagedLoop {J α : Type} (c : Confluence) (fetch : GetRequest → Response J)
    (itemType : J → α) : Nat → String → Params → List (Event α)
  | 0, _, _ => []
  | fuel + 1, url, params =>
    let r := issueGet c url params
    let body := fetch r
    Event.req r ::
      match body.links with
      | none => [Event.err PageError.missingLinks]
      | some nextOpt =>
        match body.results with
        | none => [Event.err PageError.missingResults]
        | some items =>
          let ys := items.map (fun j => Event.yield (itemType j))
          match nextOpt with
          | some nxt => ys ++ pagedLoop c fetch itemType fuel (c.base_url ++ nxt) []
          | none => ys

/-- `Confluence._get_paged_results`: the initial URL is
`'{}/{}'.format(self._api_base, path)` and the initial parameters are the
caller's mapping with `expand` merged in; from there the pagination loop
runs. -/
def getPagedResults {J α : Type} (c : Confluence) (fetch : GetRequest → Response J)
    (itemType : J → α) (fuel : Nat) (path : String) (params : Params)
    (expand : Option (List String)) : List (Event α) :=
  pagedLoop c fetch itemType fuel (apiBase c ++ "/" ++ path) (mergeExpand params expand)

/-- Python truthiness of an optional string argument: `None` and the empty
string are falsy. -/
def pyTruthy : Option String → Bool
  | none => false
  | some s => s ≠ ""

/-- A hydrated `Page` domain object (an opaque wrapper over the raw decoded
object, since the model classes are external collaborators). -/
structure PageObj (J : Type) where
  raw : J
deriving DecidableEq, Repr

/-- A hydrated `User` domain object. -/
structure UserObj (J : Type) where
  raw : J
deriving DecidableEq, Repr

/-- A hydrated `Group` domain object. -/
structure GroupObj (J : Type) where
  raw : J
deriving DecidableEq, Repr

/-- A hydrated `LongTask` domain object. -/
structure LongTaskObj (J : Type) where
  raw : J
deriving DecidableEq, Repr

/-- A `datetime.date` value. -/
structure Date where
  year : Nat
  month : Nat
  day : Nat
deriving DecidableEq, Repr

/-- Zero-pad a numeral to two digits, as `%m` / `%d` do. -/
def pad2 (n : Nat) : String :=
  if n < 10 then "0" ++ toString n else toString n

/-- Zero-pad a numeral to four digits, as `%Y` does for the years
`datetime.date` admits. -/
def pad4 (n : Nat) : String :=
  if n < 10 then "000" ++ toString n
  else if n < 100 then "00" ++ toString n
  else if n < 1000 then "0" ++ toString n
  else toString n

/-- `posting_day.strftime('%Y-%m-%d')`. -/
def strftimeYmd (d : Date) : String :=
  pad4 d.year ++ "-" ++ pad2 d.month ++ "-" ++ pad2 d.day

/-- The parameter mapping `Confluence.get_content` assembles: `type` when
`content_type` is truthy and one of `page`/`blogpost`; `spaceKey`, `title`,
`status` when truthy; and `postingDay` — the date formatted `%Y-%m-%d` —
only when a `posting_day` was given (a `date` object is always truthy) and
`content_type == 'blogpost'`. -/
def get_content_params (content_type : String) (space_key title status : Option String)
    (posting_day : Option Date) : Params :=
  let params : Params := []
  let params := if content_type ≠ "" ∧ (content_type = "page" ∨ content_type = "blogpost")
    then params ++ [("type", content_type)] else params
  let params := if pyTruthy space_key then params ++ [("spaceKey", space_key.getD "")] else params
  let params := if pyTruthy title then params ++ [("title", title.getD "")] else params
  let params := if pyTruthy status then params ++ [("status", status.getD "")] else params
  let params := match posting_day with
    | some d => if content_type = "blogpost" then params ++ [("postingDay", strftimeYmd d)] else params
    | none => params
  params

/-- `Confluence.get_content`: assembles the parameters and delegates to the
paged engine on path `content`, hydrating with the `Page` constructor. -/
def get_content {J : Type} (c : Confluence) (fetch : GetRequest → Response J)
    (fuel : Nat) (content_type : String) (space_key title status : Option String)
    (posting_day : Option Date) (expand : Option (List String)) :
    List (Event (PageObj J)) :=
  getPagedResults c fetch PageObj.mk fuel "content"
    (get_content_params content_type space_key title status posting_day) expand

/-- The shared caller-contract check of `get_user` and `get_user_groups`:
`(not username and not user_key) or (username and user_key)` under Python
truthiness. -/
def userArgsInvalid (username user_key : Option String) : Bool :=
  (!pyTruthy username && !pyTruthy user_key) || (pyTruthy username && pyTruthy user_key)

/-- The lookup parameters `get_user` / `get_user_groups` assemble once the
contract check passed: `username` when truthy, `key` when truthy. -/
def userLookupParams (username user_key : Option String) : Params :=
  let params : Params := []
  let params := if pyTruthy username then params ++ [("username", username.getD "")] else params
  let params := if pyTruthy user_key then params ++ [("key", user_key.getD "")] else params
  params

/-- `Confluence.get_user`: raises `ValueError` (before any request) unless
exactly one of `username` / `user_key` is truthy; otherwise performs a
single-result fetch on path `user` with that one lookup parameter,
hydrating a `User`. -/
def get_user {J : Type} (c : Confluence) (fetchS : GetRequest → J)
    (username user_key : Option String) (expand : Option (List String)) :
    Except String (GetRequest × UserObj J) :=
  if userArgsInvalid username user_key then
    Except.error "Exactly one of username or user_key must be set"
  else
    Except.ok (getSingleResult c fetchS UserObj.mk "user"
      (userLookupParams username user_key) expand)

/-- `Confluence.get_user_groups`: raises `ValueError` (before any request)
unless exactly one of `username` / `user_key` is truthy; otherwise delegates
to the paged engine on path `user/memberof`, hydrating `Group` objects. -/
def get_user_groups {J : Type} (c : Confluence) (fetch : GetRequest → Response J)
    (fuel : Nat) (username user_key : Option String)
    (expand : Option (List String)) : Except String (List (Event (GroupObj J))) :=
  if userArgsInvalid username user_key then
    Except.error "Exactly one of username or user_key must be set"
  else
    Except.ok (getPagedResults c fetch GroupObj.mk fuel "user/memberof"
      (userLookupParams username user_key) expand)

/-- `Confluence.get_long_task`: as written, it delegates to the PAGED
engine on path `longtask/{task_id}` (not to `_get_single_result`). -/
def get_long_task {J : Type} (c : Confluence) (fetch : GetRequest → Response J)
    (fuel : Nat) (task_id : String) (expand : Option (List String)) :
    List (Event (LongTaskObj J)) :=
  getPagedResults c fetch LongTaskObj.mk fuel ("longtask/" ++ task_id) [] expand

/-! ## Helper lemmas -/

theorem issueGet_params (c : Confluence) (url : String) (params : Params) :
    (issueGet c url params).params = params := by
  cases h : c.client <;> simp [issueGet, h]

theorem issueGet_url (c : Confluence) (url : String) (params : Params) :
    (issueGet c url params).url = url := by
  cases h : c.client <;> simp [issueGet, h]

theorem lookup_append (k : String) (l1 l2 : Params) :
    List.lookup k (l1 ++ l2) = ((List.lookup k l1).orElse (fun _ => List.lookup k l2)) := by
  induction l1 with
  | nil => simp [List.lookup]
  | cons p l ih =>
    obtain ⟨a, b⟩ := p
    by_cases h : k = a
    · simp [List.lookup, h]
    · simp [List.lookup, h, ih, beq_false_of_ne h]

theorem lookup_postingDay_params (ct : String) (sk t st : Option String) (pd : Option Date) :
    List.lookup "postingDay" (get_content_params ct sk t st pd) =
      match pd with
      | some d => if ct = "blogpost" then some (strftimeYmd d) else none
      | none => none := by
  unfold get_content_params
  cases pd with
  | none => split_ifs <;> simp [lookup_append, List.lookup]
  | some d => split_ifs <;> simp [lookup_append, List.lookup]

theorem lookup_mergeExpand_ne (k : String) (params : Params) (expand : Option (List String))
    (h : k ≠ "expand") :
    List.lookup k (mergeExpand params expand) = List.lookup k params := by
  cases expand with
  | none => rfl
  | some es =>
    by_cases he : es = [] <;> simp [mergeExpand, he, lookup_append, List.lookup, beq_false_of_ne h]

/-! ## Concrete fixtures used by witnesses -/

/-- A concrete client: constructed, not entered (non-scoped mode). -/
def cFix : Confluence := init "https://example.org/wiki" ("alice", "secret")

/-- The `next` path the two-page server fixture embeds in page 1. -/
def nextPathFix : String := "/rest/api/content?start=25"

/-- A two-page server: the request for `base_url ++ nextPathFix` gets the
final page (`_links` without `next`, results `[3, 4]`); any other request
gets page 1 (`_links.next = nextPathFix`, results `[1, 2]`). -/
def fetchTwoPage : GetRequest → Response Nat := fun r =>
  if r.url = cFix.base_url ++ nextPathFix then ⟨some (none : Option String), some [3, 4]⟩
  else ⟨some (some nextPathFix), some [1, 2]⟩

/-- A server whose every response is a bare single-object body: no `_links`
key, no `results` key — the shape the real service returns for
`longtask/{id}`. -/
def fetchBareObject : GetRequest → Response Nat := fun _ => ⟨none, none⟩

/-- A single-result transport oracle returning a fixed raw object. -/
def fetchSingleFix : GetRequest → Nat := fun _ => 7

/-- The paged loop only depends on the client through the requests it issues
and through `base_url`, so two client states agreeing on those produce
identical traces. -/
theorem pagedLoop_congr {J α : Type} (c1 c2 : Confluence) (fetch : GetRequest → Response J)
    (it : J → α) (hbase : c1.base_url = c2.base_url)
    (hreq : ∀ url params, issueGet c1 url params = issueGet c2 url params) :
    ∀ (fuel : Nat) (url : String) (params : Params),
      pagedLoop c1 fetch it fuel url params = pagedLoop c2 fetch it fuel url params := by
  intro fuel
  induction fuel with
  | zero => intro url params; rfl
  | succ n ih =>
    intro url params
    simp only [pagedLoop, hreq url params, hbase]
    cases (fetch (issueGet c2 url params)).links with
    | none => rfl
    | some nextOpt =>
      cases (fetch (issueGet c2 url params)).results with
      | none => rfl
      | some items =>
        cases nextOpt with
        | none => rfl
        | some nxt => simp [ih]

/-! ## Claims -/

/-- C10: `__enter__` installs the authenticated session on the instance but
returns `None` (so a `with ... as c` binding is `None` and calls must go
through the originally constructed object), and `__exit__` closes the
session only when one was opened: on a never-entered instance it does
nothing, on an entered one it closes the installed session. -/
theorem enter_returns_none_exit_closes (base : String) (auth : String × String) :
    (enter (init base auth)).2 = none ∧
    (enter (init base auth)).1.client = some ⟨auth, false⟩ ∧
    exitBlock (init base auth) = init base auth ∧
    (exitBlock (enter (init base auth)).1).client = some ⟨auth, true⟩ :=
  ⟨rfl, rfl, rfl, rfl⟩

/-- C1: evaluating `get_long_task` as the code writes it — it delegates to
`_get_paged_results`, not `_get_single_result` — on a server that answers
`longtask/{id}` with the natural single-object body (no `_links` key): the
call issues one GET to `longtask/{id}` through the paged engine and then
fails with the missing-`_links` decode error instead of returning one
hydrated `LongTask`; the claimed single-result behaviour does not occur. -/
theorem get_long_task_uses_paged_path :
    get_long_task cFix fetchBareObject 5 "2c9682534c8e60d5014c9f5e4f3d0104" none =
      [Event.req ⟨"https://example.org/wiki/rest/api/longtask/2c9682534c8e60d5014c9f5e4f3d0104",
          [], ("alice", "secret")⟩,
       Event.err PageError.missingLinks] := by
  decide

/-- C4: the first outgoing request of `get_content` carries `postingDay`
exactly when a `posting_day` was supplied and `content_type` is
`'blogpost'` (never for `'page'`), and its value is the date formatted
`YYYY-MM-DD`; in particular `date(2024, 3, 5)` formats to `"2024-03-05"`. -/
theorem get_content_postingDay {J : Type} (c : Confluence) (fetch : GetRequest → Response J)
    (fuel : Nat) (ct : String) (sk t st : Option String) (pd : Option Date)
    (expand : Option (List String)) :
    (∃ r rest, get_content c fetch (fuel + 1) ct sk t st pd expand = Event.req r :: rest ∧
      r.params.lookup "postingDay" =
        (match pd with
         | some d => if ct = "blogpost" then some (strftimeYmd d) else none
         | none => none)) ∧
    strftimeYmd ⟨2024, 3, 5⟩ = "2024-03-05" := by
  constructor
  · refine ⟨issueGet c (apiBase c ++ "/" ++ "content")
      (mergeExpand (get_content_params ct sk t st pd) expand), _, rfl, ?_⟩
    rw [issueGet_params, lookup_mergeExpand_ne _ _ _ (by decide), lookup_postingDay_params]
  · decide

/-- C8: running an operation on an entered client (scoped-session mode,
where `__enter__` set the session's auth to the stored credentials) and on
the same freshly constructed client (non-scoped mode, per-request auth)
issues the same requests — same URL, parameters and credentials — and
produces the same results, for the single-result fetch and for the paged
fetch that every query builder funnels through. -/
theorem scoped_unscoped_equiv (J α : Type) (base : String) (auth : String × String)
    (fetchS : GetRequest → J) (fetch : GetRequest → Response J) (itS it : J → α)
    (fuel : Nat) (path : String) (params : Params) (expand : Option (List String)) :
    getSingleResult ((enter (init base auth)).1) fetchS itS path params expand =
      getSingleResult (init base auth) fetchS itS path params expand ∧
    getPagedResults ((enter (init base auth)).1) fetch it fuel path params expand =
      getPagedResults (init base auth) fetch it fuel path params expand := by
  refine ⟨rfl, ?_⟩
  exact pagedLoop_congr ((enter (init base auth)).1) (init base auth) fetch it rfl
    (fun _ _ => rfl) fuel (apiBase (init base auth) ++ "/" ++ path) (mergeExpand params expand)

/-- C3: `get_user` and `get_user_groups` reject a call supplying both of
`username` / `user_key`, or neither, with the `ValueError` — synchronously,
before any request exists (the error branch carries no request, while the
success branch's value is what records the one request issued) — and a call
supplying exactly one succeeds, sending exactly that one as the lookup
parameter. -/
theorem user_lookup_contract {J : Type} (c : Confluence) (fetchS : GetRequest → J)
    (fetch : GetRequest → Response J) (fuel : Nat) (u k : Option String)
    (expand : Option (List String)) :
    ((pyTruthy u = true ∧ pyTruthy k = true) ∨ (pyTruthy u = false ∧ pyTruthy k = false) →
      get_user c fetchS u k expand =
        Except.error "Exactly one of username or user_key must be set" ∧
      get_user_groups c fetch fuel u k expand =
        Except.error "Exactly one of username or user_key must be set") ∧
    (pyTruthy u = true → pyTruthy k = false →
      get_user c fetchS u k expand =
        Except.ok (getSingleResult c fetchS UserObj.mk "user"
          [("username", u.getD "")] expand) ∧
      get_user_groups c fetch fuel u k expand =
        Except.ok (getPagedResults c fetch GroupObj.mk fuel "user/memberof"
          [("username", u.getD "")] expand)) ∧
    (pyTruthy u = false → pyTruthy k = true →
      get_user c fetchS u k expand =
        Except.ok (getSingleResult c fetchS UserObj.mk "user"
          [("key", k.getD "")] expand) ∧
      get_user_groups c fetch fuel u k expand =
        Except.ok (getPagedResults c fetch GroupObj.mk fuel "user/memberof"
          [("key", k.getD "")] expand)) := by
  refine ⟨?_, ?_, ?_⟩
  · rintro (⟨h1, h2⟩ | ⟨h1, h2⟩) <;>
      simp [get_user, get_user_groups, userArgsInvalid, h1, h2]
  · intro h1 h2
    simp [get_user, get_user_groups, userArgsInvalid, userLookupParams, h1, h2]
  · intro h1 h2
    simp [get_user, get_user_groups, userArgsInvalid, userLookupParams, h1, h2]

/-- Witness for C3 at concrete inputs: both supplied and neither supplied
are rejected; a username-only call and a key-only call go through with just
that parameter. -/
theorem user_lookup_contract_witness :
    (get_user cFix fetchSingleFix (some "alice") (some "kk") none =
      Except.error "Exactly one of username or user_key must be set") ∧
    (get_user_groups cFix fetchTwoPage 2 none none none =
      Except.error "Exactly one of username or user_key must be set") ∧
    (get_user cFix fetchSingleFix (some "alice") none none =
      Except.ok (getSingleResult cFix fetchSingleFix UserObj.mk "user"
        [("username", (some "alice").getD "")] none)) ∧
    (get_user_groups cFix fetchTwoPage 2 none (some "kk") none =
      Except.ok (getPagedResults cFix fetchTwoPage GroupObj.mk 2 "user/memberof"
        [("key", (some "kk").getD "")] none)) := by
  refine ⟨?_, ?_, ?_, ?_⟩
  · exact ((user_lookup_contract cFix fetchSingleFix fetchTwoPage 2 (some "alice")
      (some "kk") none).1 (Or.inl ⟨by decide, by decide⟩)).1
  · exact ((user_lookup_contract cFix fetchSingleFix fetchTwoPage 2 none none none).1
      (Or.inr ⟨by decide, by decide⟩)).2
  · exact ((user_lookup_contract cFix fetchSingleFix fetchTwoPage 2 (some "alice")
      none none).2.1 (by decide) (by decide)).1
  · exact ((user_lookup_contract cFix fetchSingleFix fetchTwoPage 2 none
      (some "kk") none).2.2 (by decide) (by decide)).2

/-- Render a list of page blocks — each a request followed by the yields it
produced — with a trailing remainder, as one flat event trace. -/
def renderBlocks {α : Type} (bs : List (GetRequest × List α)) (tail : List (Event α)) :
    List (Event α) :=
  (bs.map (fun b => Event.req b.1 :: b.2.map Event.yield)).flatten ++ tail

/-- Every pager trace decomposes into page blocks — a request immediately
followed by exactly the hydrated items of the page that request fetched —
with at most a final request-then-error remainder. -/
theorem pagedLoop_blocks {J α : Type} (c : Confluence) (fetch : GetRequest → Response J)
    (it : J → α) :
    ∀ (fuel : Nat) (url : String) (params : Params),
      ∃ bs tail, pagedLoop c fetch it fuel url params = renderBlocks bs tail ∧
        (tail = [] ∨ ∃ r e, tail = [Event.req r, Event.err e]) ∧
        (∀ b ∈ bs, ∃ items, (fetch b.1).results = some items ∧ b.2 = items.map it) := by
  intro fuel
  induction fuel with
  | zero =>
    intro url params
    exact ⟨[], [], rfl, Or.inl rfl, by simp⟩
  | succ n ih =>
    intro url params
    cases hl : (fetch (issueGet c url params)).links with
    | none =>
      refine ⟨[], [Event.req (issueGet c url params), Event.err PageError.missingLinks],
        ?_, Or.inr ⟨_, _, rfl⟩, by simp⟩
      simp [pagedLoop, hl, renderBlocks]
    | some nextOpt =>
      cases hr : (fetch (issueGet c url params)).results with
      | none =>
        refine ⟨[], [Event.req (issueGet c url params), Event.err PageError.missingResults],
          ?_, Or.inr ⟨_, _, rfl⟩, by simp⟩
        simp [pagedLoop, hl, hr, renderBlocks]
      | some items =>
        cases nextOpt with
        | none =>
          refine ⟨[(issueGet c url params, items.map it)], [], ?_, Or.inl rfl, ?_⟩
          · simp [pagedLoop, hl, hr, renderBlocks, List.map_map]
          · intro b hb
            rw [List.mem_singleton] at hb
            exact ⟨items, by rw [hb]; exact hr, by rw [hb]⟩
        | some nxt =>
          obtain ⟨bs, tail, heq, htail, hbs⟩ := ih (c.base_url ++ nxt) []
          refine ⟨(issueGet c url params, items.map it) :: bs, tail, ?_, htail, ?_⟩
          · simp [pagedLoop, hl, hr, renderBlocks, List.map_map, heq]
          · intro b hb
            rcases List.mem_cons.mp hb with hb | hb
            · exact ⟨items, by rw [hb]; exact hr, by rw [hb]⟩
            · exact hbs b hb

/-- C2: on the two-page fixture — page 1 carrying `_links.next` and page 2
without it — the pager trace is exactly: the request for page 1, page 1's
items in order, the request for page 2, page 2's items in order; two GET
requests in total.  In general every pager trace is a flat sequence of page
blocks, each block being one request immediately followed by exactly the
hydrated items of the page that request returned (with at most a final
request-then-error remainder): all items of page N reach the consumer
before the request for page N+1 is issued — strict one-page-at-a-time, no
read-ahead. -/
theorem paged_two_page_exact_order :
    (getPagedResults cFix fetchTwoPage (fun n : Nat => n) 3 "content" [] none =
      [Event.req ⟨"https://example.org/wiki/rest/api/content", [], ("alice", "secret")⟩,
       Event.yield 1, Event.yield 2,
       Event.req ⟨"https://example.org/wiki/rest/api/content?start=25", [], ("alice", "secret")⟩,
       Event.yield 3, Event.yield 4]) ∧
    (∀ (J α : Type) (c : Confluence) (fetch : GetRequest → Response J) (it : J → α)
        (fuel : Nat) (url : String) (params : Params),
      ∃ bs tail, pagedLoop c fetch it fuel url params = renderBlocks bs tail ∧
        (tail = [] ∨ ∃ r e, tail = [Event.req r, Event.err e]) ∧
        (∀ b ∈ bs, ∃ items, (fetch b.1).results = some items ∧ b.2 = items.map it)) :=
  ⟨by decide, fun J α c fetch it fuel url params => pagedLoop_blocks c fetch it fuel url params⟩

/-- In a pager run started with an empty parameter mapping, every request of
the run carries the empty mapping. -/
theorem pagedLoop_req_params_nil {J α : Type} (c : Confluence)
    (fetch : GetRequest → Response J) (it : J → α) :
    ∀ (fuel : Nat) (url : String) (r : GetRequest),
      Event.req r ∈ pagedLoop c fetch it fuel url [] → r.params = [] := by
  intro fuel
  induction fuel with
  | zero => intro url r h; simp [pagedLoop] at h
  | succ n ih =>
    intro url r h
    rcases List.mem_cons.mp h with h | h
    · obtain rfl : r = issueGet c url [] := by injection h
      exact issueGet_params c url []
    · cases hl : (fetch (issueGet c url [])).links with
      | none => simp [hl] at h
      | some nextOpt =>
        cases hr : (fetch (issueGet c url [])).results with
        | none => simp [hl, hr] at h
        | some items =>
          cases nextOpt with
          | none =>
            rw [hl, hr] at h
            simp at h
          | some nxt =>
            rw [hl, hr] at h
            rcases List.mem_append.mp h with h | h
            · simp at h
            · exact ih (c.base_url ++ nxt) r h

/-- C5: once pagination moves past the first request, the locally supplied
parameter mapping (the builder's parameters with the merged `expand` value)
has been cleared: every request of the run after the first carries an empty
parameter mapping, so only the query state embedded in the server's next
URL travels on. -/
theorem params_cleared_after_first_request {J α : Type} (c : Confluence)
    (fetch : GetRequest → Response J) (it : J → α) (fuel : Nat) (path : String)
    (params : Params) (expand : Option (List String)) (r : GetRequest)
    (h : Event.req r ∈ (getPagedResults c fetch it fuel path params expand).drop 1) :
    r.params = [] := by
  revert h
  unfold getPagedResults
  cases fuel with
  | zero => intro h; simp [pagedLoop] at h
  | succ n =>
    intro h
    rw [show pagedLoop c fetch it (n + 1) (apiBase c ++ "/" ++ path)
        (mergeExpand params expand) =
      Event.req (issueGet c (apiBase c ++ "/" ++ path) (mergeExpand params expand)) ::
        _ from rfl, List.drop_one, List.tail_cons] at h
    cases hl : (fetch (issueGet c (apiBase c ++ "/" ++ path)
        (mergeExpand params expand))).links with
    | none => simp [hl] at h
    | some nextOpt =>
      cases hr : (fetch (issueGet c (apiBase c ++ "/" ++ path)
          (mergeExpand params expand))).results with
      | none => simp [hl, hr] at h
      | some items =>
        cases nextOpt with
        | none =>
          rw [hl, hr] at h
          simp at h
        | some nxt =>
          rw [hl, hr] at h
          rcases List.mem_append.mp h with h | h
          · simp at h
          · exact pagedLoop_req_params_nil c fetch it n (c.base_url ++ nxt) r h

/-- Witness for C5: in a two-page run started with a `title` parameter and
an `expand` list, the second request — the one to the server-provided next
URL — carries the empty parameter mapping. -/
theorem params_cleared_witness :
    (Event.req ⟨"https://example.org/wiki/rest/api/content?start=25", [], ("alice", "secret")⟩ ∈
      (getPagedResults cFix fetchTwoPage (fun n : Nat => n) 3 "content"
        [("title", "x")] (some ["space"])).drop 1) ∧
    (⟨"https://example.org/wiki/rest/api/content?start=25", [], ("alice", "secret")⟩ :
      GetRequest).params = [] :=
  ⟨by decide,
   params_cleared_after_first_request cFix fetchTwoPage (fun n : Nat => n) 3 "content"
     [("title", "x")] (some ["space"]) _ (by decide)⟩

/-- C6: when a fetched page's `_links` has a `next` value, the following
request's URL is exactly `base_url` concatenated with that value (not the
api base) and it carries no parameters; when `_links` has no `next`, the
trace ends with that page's items and no further request is issued. -/
theorem next_url_appended_to_base {J α : Type} (c : Confluence)
    (fetch : GetRequest → Response J) (it : J → α) (fuel : Nat) (url : String)
    (params : Params) (nxt : String) (items : List J) :
    ((fetch (issueGet c url params)).links = some (some nxt) →
      (fetch (issueGet c url params)).results = some items →
      ∃ r1 t, pagedLoop c fetch it (fuel + 2) url params =
          Event.req (issueGet c url params) ::
            (items.map fun j => Event.yield (it j)) ++ Event.req r1 :: t ∧
        r1.url = c.base_url ++ nxt ∧ r1.params = []) ∧
    ((fetch (issueGet c url params)).links = some none →
      (fetch (issueGet c url params)).results = some items →
      pagedLoop c fetch it (fuel + 1) url params =
        Event.req (issueGet c url params) :: items.map fun j => Event.yield (it j)) := by
  constructor
  · intro hl hr
    obtain ⟨t, ht⟩ : ∃ t, pagedLoop c fetch it (fuel + 1) (c.base_url ++ nxt) [] =
        Event.req (issueGet c (c.base_url ++ nxt) []) :: t := ⟨_, rfl⟩
    refine ⟨issueGet c (c.base_url ++ nxt) [], t, ?_,
      issueGet_url c (c.base_url ++ nxt) [], issueGet_params c (c.base_url ++ nxt) []⟩
    rw [show pagedLoop c fetch it (fuel + 2) url params =
        Event.req (issueGet c url params) :: _ from rfl]
    simp only [hl, hr, ht]
    simp [List.cons_append]
  · intro hl hr
    rw [show pagedLoop c fetch it (fuel + 1) url params =
        Event.req (issueGet c url params) :: _ from rfl]
    simp only [hl, hr]

/-- Witness for C6 on the two-page fixture: page 1's `next` makes the second
request go to `base_url ++ next` with empty parameters; page 2 (no `next`)
ends the trace after its items. -/
theorem next_url_witness :
    (∃ r1 t, pagedLoop cFix fetchTwoPage (fun n : Nat => n) 3
        "https://example.org/wiki/rest/api/content" [] =
        Event.req (issueGet cFix "https://example.org/wiki/rest/api/content" []) ::
          ([1, 2].map fun j => Event.yield ((fun n : Nat => n) j)) ++ Event.req r1 :: t ∧
        r1.url = cFix.base_url ++ nextPathFix ∧ r1.params = []) ∧
    (pagedLoop cFix fetchTwoPage (fun n : Nat => n) 1
        "https://example.org/wiki/rest/api/content?start=25" [] =
      Event.req (issueGet cFix "https://example.org/wiki/rest/api/content?start=25" []) ::
        [3, 4].map fun j => Event.yield ((fun n : Nat => n) j)) :=
  ⟨(next_url_appended_to_base cFix fetchTwoPage (fun n : Nat => n) 1
      "https://example.org/wiki/rest/api/content" [] nextPathFix [1, 2]).1
      (by decide) (by decide),
   (next_url_appended_to_base cFix fetchTwoPage (fun n : Nat => n) 0
      "https://example.org/wiki/rest/api/content?start=25" [] nextPathFix [3, 4]).2
      (by decide) (by decide)⟩

/-- Splitting a list equation `pre ++ a :: post = l1 ++ rest` past a prefix
`l1` that does not contain `a`. -/
theorem append_cons_eq_append_split {β : Type} (a : β) :
    ∀ (l1 pre post rest : List β), pre ++ a :: post = l1 ++ rest → a ∉ l1 →
      ∃ pre2, pre = l1 ++ pre2 ∧ pre2 ++ a :: post = rest := by
  intro l1
  induction l1 with
  | nil => intro pre post rest h _; exact ⟨pre, by simp, h⟩
  | cons x l ih =>
    intro pre post rest h hna
    cases pre with
    | nil =>
      rw [List.nil_append, List.cons_append] at h
      injection h with h1 h2
      exact absurd (h1 ▸ List.mem_cons_self x l) hna
    | cons p pre' =>
      rw [List.cons_append, List.cons_append] at h
      injection h with h1 h2
      obtain ⟨pre2, hp, hrest⟩ := ih pre' post rest h2
        (fun hm => hna (List.mem_cons_of_mem _ hm))
      exact ⟨pre2, by rw [hp, h1, List.cons_append], hrest⟩

/-- In any pager trace, an error event terminates the trace and sits
immediately after the request whose response was malformed: nothing of the
offending page, and no later page, is yielded after it. -/
theorem pagedLoop_err_final {J α : Type} (c : Confluence)
    (fetch : GetRequest → Response J) (it : J → α) :
    ∀ (fuel : Nat) (url : String) (params : Params) (pre : List (Event α))
      (e : PageError) (post : List (Event α)),
      pagedLoop c fetch it fuel url params = pre ++ Event.err e :: post →
      post = [] ∧ ∃ pre2 r, pre = pre2 ++ [Event.req r] := by
  intro fuel
  induction fuel with
  | zero =>
    intro url params pre e post h
    simp [pagedLoop] at h
  | succ n ih =>
    intro url params pre e post h
    rw [show pagedLoop c fetch it (n + 1) url params =
        Event.req (issueGet c url params) :: _ from rfl] at h
    cases pre with
    | nil => simp at h
    | cons p pre' =>
      rw [List.cons_append] at h
      injection h with h1 h2
      cases hl : (fetch (issueGet c url params)).links with
      | none =>
        rw [hl] at h2
        cases pre' with
        | nil =>
          rw [List.nil_append] at h2
          injection h2 with h3 h4
          exact ⟨h4.symm, [], issueGet c url params, by rw [← h1]; simp⟩
        | cons q pre'' =>
          rw [List.cons_append] at h2
          injection h2 with h3 h4
          exact absurd h4.symm (by simp)
      | some nextOpt =>
        cases hr : (fetch (issueGet c url params)).results with
        | none =>
          rw [hl, hr] at h2
          cases pre' with
          | nil =>
            rw [List.nil_append] at h2
            injection h2 with h3 h4
            exact ⟨h4.symm, [], issueGet c url params, by rw [← h1]; simp⟩
          | cons q pre'' =>
            rw [List.cons_append] at h2
            injection h2 with h3 h4
            exact absurd h4.symm (by simp)
        | some items =>
          cases nextOpt with
          | none =>
            rw [hl, hr] at h2
            have h2' : (items.map fun j => Event.yield (it j)) =
                pre' ++ Event.err e :: post := h2
            have hmem : Event.err e ∈ items.map fun j => Event.yield (it j) := by
              rw [h2']; simp
            simp at hmem
          | some nxt =>
            rw [hl, hr] at h2
            have h2' : (items.map fun j => Event.yield (it j)) ++
                pagedLoop c fetch it n (c.base_url ++ nxt) [] =
                pre' ++ Event.err e :: post := h2
            obtain ⟨pre2, hp, hrest⟩ := append_cons_eq_append_split (Event.err e)
              (items.map fun j => Event.yield (it j)) pre' post
              (pagedLoop c fetch it n (c.base_url ++ nxt) []) h2'.symm (by simp)
            obtain ⟨hpost, pre3, r, hpre3⟩ :=
              ih (c.base_url ++ nxt) [] pre2 e post hrest.symm
            refine ⟨hpost, Event.req (issueGet c url params) ::
              (items.map fun j => Event.yield (it j)) ++ pre3, r, ?_⟩
            rw [← h1, hp, hpre3]
            simp

/-- C7: a page whose decoded body lacks `_links` fails the iteration right
after its request, yielding nothing of that page, with the
missing-`_links` error; a page whose body has `_links` but lacks `results`
fails likewise with the missing-`results` error; and in every trace an
error event is final and immediately follows the offending page's request,
so no item of the offending or any later page is ever yielded. -/
theorem malformed_page_fails_iteration {J α : Type} (c : Confluence)
    (fetch : GetRequest → Response J) (it : J → α) (fuel : Nat) (url : String)
    (params : Params) :
    ((fetch (issueGet c url params)).links = none →
      pagedLoop c fetch it (fuel + 1) url params =
        [Event.req (issueGet c url params), Event.err PageError.missingLinks]) ∧
    (∀ nextOpt, (fetch (issueGet c url params)).links = some nextOpt →
      (fetch (issueGet c url params)).results = none →
      pagedLoop c fetch it (fuel + 1) url params =
        [Event.req (issueGet c url params), Event.err PageError.missingResults]) ∧
    (∀ pre e post, pagedLoop c fetch it fuel url params = pre ++ Event.err e :: post →
      post = [] ∧ ∃ pre2 r, pre = pre2 ++ [Event.req r]) := by
  refine ⟨fun hl => ?_, fun nextOpt hl hr => ?_,
    fun pre e post h => pagedLoop_err_final c fetch it fuel url params pre e post h⟩
  · rw [show pagedLoop c fetch it (fuel + 1) url params =
        Event.req (issueGet c url params) :: _ from rfl]
    simp only [hl]
  · rw [show pagedLoop c fetch it (fuel + 1) url params =
        Event.req (issueGet c url params) :: _ from rfl]
    simp only [hl, hr]

/-- A server answering with `_links` present (no `next`) but no `results`
key. -/
def fetchNoResults : GetRequest → Response Nat := fun _ => ⟨some (none : Option String), none⟩

/-- Witness for C7: a body without `_links` and a body without `results`
each fail right after their one request, and in the resulting trace the
error is final, preceded only by that request. -/
theorem malformed_page_witness :
    (pagedLoop cFix fetchBareObject (fun n : Nat => n) 1 "u" [] =
      [Event.req (issueGet cFix "u" []), Event.err PageError.missingLinks]) ∧
    (pagedLoop cFix fetchNoResults (fun n : Nat => n) 1 "u" [] =
      [Event.req (issueGet cFix "u" []), Event.err PageError.missingResults]) ∧
    (([] : List (Event Nat)) = [] ∧
      ∃ pre2 r, ([Event.req (issueGet cFix "u" [])] : List (Event Nat)) =
        pre2 ++ [Event.req r]) :=
  ⟨(malformed_page_fails_iteration cFix fetchBareObject (fun n : Nat => n) 0 "u" []).1
    (by decide),
   (malformed_page_fails_iteration cFix fetchNoResults (fun n : Nat => n) 0 "u" []).2.1
    none (by decide) (by decide),
   (malformed_page_fails_iteration cFix fetchBareObject (fun n : Nat => n) 1 "u" []).2.2
    [Event.req (issueGet cFix "u" [])] PageError.missingLinks [] (by decide)⟩

/-- The number of request events in a trace. -/
def numRequests {α : Type} (t : List (Event α)) : Nat :=
  t.countP fun e => match e with | Event.req _ => true | _ => false

theorem numRequests_cons_req {α : Type} (r : GetRequest) (t : List (Event α)) :
    numRequests (Event.req r :: t) = numRequests t + 1 := by
  simp [numRequests, List.countP_cons]

theorem numRequests_append {α : Type} (l1 l2 : List (Event α)) :
    numRequests (l1 ++ l2) = numRequests l1 + numRequests l2 :=
  List.countP_append _ _ _

theorem numRequests_yields {J α : Type} (items : List J) (it : J → α) :
    numRequests (items.map fun j => Event.yield (it j)) = 0 := by
  unfold numRequests
  rw [List.countP_eq_zero]
  intro a ha
  obtain ⟨j, -, rfl⟩ := List.mem_map.mp ha
  simp

/-- The chain of responses reached from `(url, params)` arrives, after `n`
further pages, at a page whose `_links` has no `next` key. -/
inductive Reaches {J : Type} (c : Confluence) (fetch : GetRequest → Response J) :
    String → Params → Nat → Prop where
  | last {url : String} {params : Params} :
      (fetch (issueGet c url params)).links = some none →
      Reaches c fetch url params 0
  | step {url : String} {params : Params} {nxt : String} {n : Nat} :
      (fetch (issueGet c url params)).links = some (some nxt) →
      Reaches c fetch (c.base_url ++ nxt) [] n →
      Reaches c fetch url params (n + 1)

/-- C9: when the chain of server responses from the initial URL reaches,
after `n` further pages, a page whose `_links` has no `next` key, the
pagination loop terminates after processing that final page: the trace is
the same for every iteration budget beyond `n + 1`, and it contains at most
`n + 1` requests (hence finitely many yields). -/
theorem paged_iteration_terminates {J α : Type} (c : Confluence)
    (fetch : GetRequest → Response J) (it : J → α) {url : String} {params : Params}
    {n : Nat} (h : Reaches c fetch url params n) :
    (∀ k, pagedLoop c fetch it (n + 1 + k) url params =
      pagedLoop c fetch it (n + 1) url params) ∧
    numRequests (pagedLoop c fetch it (n + 1) url params) ≤ n + 1 := by
  induction h with
  | @last url params hl =>
    constructor
    · intro k
      rw [show 0 + 1 + k = k + 1 from by omega]
      cases hr : (fetch (issueGet c url params)).results with
      | none =>
        rw [show pagedLoop c fetch it (k + 1) url params =
            Event.req (issueGet c url params) :: _ from rfl,
          show pagedLoop c fetch it (0 + 1) url params =
            Event.req (issueGet c url params) :: _ from rfl]
        simp only [hl, hr]
      | some items =>
        rw [show pagedLoop c fetch it (k + 1) url params =
            Event.req (issueGet c url params) :: _ from rfl,
          show pagedLoop c fetch it (0 + 1) url params =
            Event.req (issueGet c url params) :: _ from rfl]
        simp only [hl, hr]
    · cases hr : (fetch (issueGet c url params)).results with
      | none =>
        rw [show pagedLoop c fetch it (0 + 1) url params =
            Event.req (issueGet c url params) :: _ from rfl]
        simp only [hl, hr]
        simp [numRequests, List.countP_cons]
      | some items =>
        rw [show pagedLoop c fetch it (0 + 1) url params =
            Event.req (issueGet c url params) :: _ from rfl]
        simp only [hl, hr]
        rw [numRequests_cons_req, numRequests_yields]
  | @step url params nxt m hl hrest ih =>
    obtain ⟨ih1, ih2⟩ := ih
    constructor
    · intro k
      rw [show m + 1 + 1 + k = (m + 1 + k) + 1 from by omega]
      cases hr : (fetch (issueGet c url params)).results with
      | none =>
        rw [show pagedLoop c fetch it (m + 1 + k + 1) url params =
            Event.req (issueGet c url params) :: _ from rfl,
          show pagedLoop c fetch it (m + 1 + 1) url params =
            Event.req (issueGet c url params) :: _ from rfl]
        simp only [hl, hr]
      | some items =>
        rw [show pagedLoop c fetch it (m + 1 + k + 1) url params =
            Event.req (issueGet c url params) :: _ from rfl,
          show pagedLoop c fetch it (m + 1 + 1) url params =
            Event.req (issueGet c url params) :: _ from rfl]
        simp only [hl, hr, ih1 k]
    · cases hr : (fetch (issueGet c url params)).results with
      | none =>
        rw [show pagedLoop c fetch it (m + 1 + 1) url params =
            Event.req (issueGet c url params) :: _ from rfl]
        simp only [hl, hr]
        simp [numRequests, List.countP_cons]
      | some items =>
        rw [show pagedLoop c fetch it (m + 1 + 1) url params =
            Event.req (issueGet c url params) :: _ from rfl]
        simp only [hl, hr]
        rw [numRequests_cons_req, numRequests_append, numRequests_yields]
        omega

/-- Witness for C9 on the two-page fixture: the chain reaches the final
page after one step, so fuel `1 + 1 + 5` and fuel `1 + 1` give the same
trace, which contains at most two requests. -/
theorem paged_iteration_terminates_witness :
    pagedLoop cFix fetchTwoPage (fun n : Nat => n) (1 + 1 + 5)
        "https://example.org/wiki/rest/api/content" [] =
      pagedLoop cFix fetchTwoPage (fun n : Nat => n) (1 + 1)
        "https://example.org/wiki/rest/api/content" [] ∧
    numRequests (pagedLoop cFix fetchTwoPage (fun n : Nat => n) (1 + 1)
        "https://example.org/wiki/rest/api/content" []) ≤ 1 + 1 :=
  have h : Reaches cFix fetchTwoPage "https://example.org/wiki/rest/api/content" [] 1 :=
    @Reaches.step Nat cFix fetchTwoPage "https://example.org/wiki/rest/api/content" []
      nextPathFix 0 (by decide) (Reaches.last (by decide))
  ⟨(paged_iteration_terminates cFix fetchTwoPage (fun n : Nat => n) h).1 5,
   (paged_iteration_terminates cFix fetchTwoPage (fun n : Nat => n) h).2⟩

end ConfluenceClient
